import Mathlib

/-!
Shallow embedding of the geoarrow-rs core (tables, geometry arrays, and the
area / affine-transform algorithms) together with proofs checking the
natural-language specification against the code.

Sources embedded:
  - `src/src/table.rs` (Table and its operations),
  - `src/src/algorithm/geo/affine_ops.rs` (AffineOps impls),
  - `src/python/core/src/algorithm/geo/area.rs` (bindings to Area).

Coordinates are modelled over the rationals so that the planar-geometry
algorithms are exact; machine floating point is not needed by any claim
settled here. Rust functions that can panic (slice indexing such as
`Schema::field(i)` or `fields[i] = f`) are modelled with an explicit
`Outcome.panic` result, distinct from value-level errors.
-/

namespace GeoArrow

/-! Coordinate layout and dimension tags, as in `src/src/datatypes.rs`
(`CoordType`, `Dimension`), consumed by `GeoDataType`. -/

inductive CoordType
  | interleaved
  | separated
deriving DecidableEq

inductive Dimension
  | xy
  | xyz
deriving DecidableEq

inductive OffsetWidth
  | w32
  | w64
deriving DecidableEq

/-- The closed tag describing a geometry array's kind, coordinate layout,
dimension, and (for variable-length kinds) offset width; mirrors the
`GeoDataType` enum used throughout `src/src/table.rs`. -/
inductive GeoDataType
  | Point (ct : CoordType) (dim : Dimension)
  | LineString (ct : CoordType) (dim : Dimension)
  | LargeLineString (ct : CoordType) (dim : Dimension)
  | Polygon (ct : CoordType) (dim : Dimension)
  | LargePolygon (ct : CoordType) (dim : Dimension)
  | MultiPoint (ct : CoordType) (dim : Dimension)
  | LargeMultiPoint (ct : CoordType) (dim : Dimension)
  | MultiLineString (ct : CoordType) (dim : Dimension)
  | LargeMultiLineString (ct : CoordType) (dim : Dimension)
  | MultiPolygon (ct : CoordType) (dim : Dimension)
  | LargeMultiPolygon (ct : CoordType) (dim : Dimension)
  | Mixed (ct : CoordType) (dim : Dimension)
  | LargeMixed (ct : CoordType) (dim : Dimension)
  | GeometryCollection (ct : CoordType) (dim : Dimension)
  | LargeGeometryCollection (ct : CoordType) (dim : Dimension)
  | WKB
  | LargeWKB
deriving DecidableEq

/-- Geometry kinds, used to drive casting decisions. -/
inductive GeoKind
  | point
  | lineString
  | polygon
  | multiPoint
  | multiLineString
  | multiPolygon
  | mixed
  | geometryCollection
  | wkb
deriving DecidableEq

def GeoDataType.kind : GeoDataType → GeoKind
  | .Point _ _ => .point
  | .LineString _ _ => .lineString
  | .LargeLineString _ _ => .lineString
  | .Polygon _ _ => .polygon
  | .LargePolygon _ _ => .polygon
  | .MultiPoint _ _ => .multiPoint
  | .LargeMultiPoint _ _ => .multiPoint
  | .MultiLineString _ _ => .multiLineString
  | .LargeMultiLineString _ _ => .multiLineString
  | .MultiPolygon _ _ => .multiPolygon
  | .LargeMultiPolygon _ _ => .multiPolygon
  | .Mixed _ _ => .mixed
  | .LargeMixed _ _ => .mixed
  | .GeometryCollection _ _ => .geometryCollection
  | .LargeGeometryCollection _ _ => .geometryCollection
  | .WKB => .wkb
  | .LargeWKB => .wkb

def GeoDataType.dimOf : GeoDataType → Option Dimension
  | .Point _ d => some d
  | .LineString _ d => some d
  | .LargeLineString _ d => some d
  | .Polygon _ d => some d
  | .LargePolygon _ d => some d
  | .MultiPoint _ d => some d
  | .LargeMultiPoint _ d => some d
  | .MultiLineString _ d => some d
  | .LargeMultiLineString _ d => some d
  | .MultiPolygon _ d => some d
  | .LargeMultiPolygon _ d => some d
  | .Mixed _ d => some d
  | .LargeMixed _ d => some d
  | .GeometryCollection _ d => some d
  | .LargeGeometryCollection _ d => some d
  | .WKB => none
  | .LargeWKB => none

def GeoDataType.width : GeoDataType → OffsetWidth
  | .Point _ _ => .w32
  | .LineString _ _ => .w32
  | .LargeLineString _ _ => .w64
  | .Polygon _ _ => .w32
  | .LargePolygon _ _ => .w64
  | .MultiPoint _ _ => .w32
  | .LargeMultiPoint _ _ => .w64
  | .MultiLineString _ _ => .w32
  | .LargeMultiLineString _ _ => .w64
  | .MultiPolygon _ _ => .w32
  | .LargeMultiPolygon _ _ => .w64
  | .Mixed _ _ => .w32
  | .LargeMixed _ _ => .w64
  | .GeometryCollection _ _ => .w32
  | .LargeGeometryCollection _ _ => .w64
  | .WKB => .w32
  | .LargeWKB => .w64

/-- The extension identifier each geometry data type declares in field
metadata; values drawn from `GEOARROW_EXTENSION_NAMES` in `src/src/table.rs`. -/
def GeoDataType.extensionName : GeoDataType → String
  | .Point _ _ => "geoarrow.point"
  | .LineString _ _ => "geoarrow.linestring"
  | .LargeLineString _ _ => "geoarrow.linestring"
  | .Polygon _ _ => "geoarrow.polygon"
  | .LargePolygon _ _ => "geoarrow.polygon"
  | .MultiPoint _ _ => "geoarrow.multipoint"
  | .LargeMultiPoint _ _ => "geoarrow.multipoint"
  | .MultiLineString _ _ => "geoarrow.multilinestring"
  | .LargeMultiLineString _ _ => "geoarrow.multilinestring"
  | .MultiPolygon _ _ => "geoarrow.multipolygon"
  | .LargeMultiPolygon _ _ => "geoarrow.multipolygon"
  | .Mixed _ _ => "geoarrow.geometry"
  | .LargeMixed _ _ => "geoarrow.geometry"
  | .GeometryCollection _ _ => "geoarrow.geometrycollection"
  | .LargeGeometryCollection _ _ => "geoarrow.geometrycollection"
  | .WKB => "geoarrow.wkb"
  | .LargeWKB => "geoarrow.wkb"

/-! Decoded geometry values. A geometry array row decodes to an optional
geometry (`None` for a null row). Mixed and GeometryCollection arrays store
rows selected from the concrete kinds, so nested collections do not occur. -/

def Coord : Type := ℚ × ℚ

instance : DecidableEq Coord := instDecidableEqProd

/-- A concrete (non-collection) geometry value as decoded from an array row. -/
inductive GeomPrim
  | point (c : Coord)
  | lineString (cs : List Coord)
  | polygon (rings : List (List Coord))
  | multiPoint (cs : List Coord)
  | multiLineString (ls : List (List Coord))
  | multiPolygon (ps : List (List (List Coord)))
deriving DecidableEq

/-- A decoded geometry row value: either a concrete geometry or a
geometry collection of concrete geometries. -/
inductive Geom
  | prim (g : GeomPrim)
  | collection (gs : List GeomPrim)
deriving DecidableEq

def GeomPrim.kind : GeomPrim → GeoKind
  | .point _ => .point
  | .lineString _ => .lineString
  | .polygon _ => .polygon
  | .multiPoint _ => .multiPoint
  | .multiLineString _ => .multiLineString
  | .multiPolygon _ => .multiPolygon

def Geom.kind : Geom → GeoKind
  | .prim g => g.kind
  | .collection _ => .geometryCollection

def GeomPrim.coordCount : GeomPrim → Nat
  | .point _ => 1
  | .lineString cs => cs.length
  | .polygon rings => (rings.map List.length).sum
  | .multiPoint cs => cs.length
  | .multiLineString ls => (ls.map List.length).sum
  | .multiPolygon ps => (ps.map (fun p => (p.map List.length).sum)).sum

def Geom.coordCount : Geom → Nat
  | .prim g => g.coordCount
  | .collection gs => (gs.map GeomPrim.coordCount).sum

/-- Apply a coordinate function to every coordinate of every part of a
geometry, as `geo::MapCoords::map_coords` does in
`src/src/algorithm/geo/affine_ops.rs`. -/
def GeomPrim.mapCoords (f : Coord → Coord) : GeomPrim → GeomPrim
  | .point c => .point (f c)
  | .lineString cs => .lineString (cs.map f)
  | .polygon rings => .polygon (rings.map (List.map f))
  | .multiPoint cs => .multiPoint (cs.map f)
  | .multiLineString ls => .multiLineString (ls.map (List.map f))
  | .multiPolygon ps => .multiPolygon (ps.map (List.map (List.map f)))

def Geom.mapCoords (f : Coord → Coord) : Geom → Geom
  | .prim g => .prim (g.mapCoords f)
  | .collection gs => .collection (gs.map (GeomPrim.mapCoords f))

/-! Affine transforms, following `geo::AffineTransform` as used by
`src/src/algorithm/geo/affine_ops.rs`: a 2D affine matrix with entries
`a b xoff / d e yoff`. -/

structure AffineTransform where
  a : ℚ
  b : ℚ
  d : ℚ
  e : ℚ
  xoff : ℚ
  yoff : ℚ
deriving DecidableEq

def AffineTransform.apply (t : AffineTransform) (c : Coord) : Coord :=
  (t.a * c.1 + t.b * c.2 + t.xoff, t.d * c.1 + t.e * c.2 + t.yoff)

/-- The identity affine transform. -/
def AffineTransform.identTransform : AffineTransform :=
  ⟨1, 0, 0, 1, 0, 0⟩

/-- A broadcastable per-row parameter source: one shared scalar or one value
per row, as in `crate::algorithm::broadcasting::BroadcastableVec`. -/
inductive BroadcastableVec (α : Type)
  | scalar (a : α)
  | array (v : List α)

/-- Modelled from the spec: the iteration of `BroadcastableVec` (its
`IntoIterator` impl lives in `src/algorithm/broadcasting`, which is not under
`src/`). A scalar is "a single scalar repeated for every row", so zipping with
it never truncates; a per-row vector yields its own elements, so Rust's
`Iterator::zip` in the `AffineOps` impls truncates at the shorter sequence. -/
def broadcastZip {α β : Type} (rows : List α) : BroadcastableVec β → List (α × β)
  | .scalar t => rows.map (fun r => (r, t))
  | .array v => rows.zip v

/-- Whether the transform source supplies a value for every one of `n` rows. -/
def BroadcastableVec.covers {α : Type} (t : BroadcastableVec α) (n : Nat) : Bool :=
  match t with
  | .scalar _ => true
  | .array v => n ≤ v.length

/-- The `AffineOps::affine_transform` implementations of
`src/src/algorithm/geo/affine_ops.rs`: every impl (PointArray and each
macro-generated array type) iterates decoded rows, zips them with the
transform source, and maps each non-null geometry through
`map_coords(|c| transform.apply(c))`. Arrays appear through their decoded
row view `List (Option Geom)`. -/
def affine_transform (arr : List (Option Geom))
    (transform : BroadcastableVec AffineTransform) : List (Option Geom) :=
  (broadcastZip arr transform).map
    (fun p => p.1.map (fun g => g.mapCoords p.2.apply))

/-! Planar area. The `Area` trait implementation is not under `src/` (only its
Python bindings in `src/python/core/src/algorithm/geo/area.rs` are), so the
algorithm is modelled from the spec. -/

def crossProd (p q : Coord) : ℚ := p.1 * q.2 - q.1 * p.2

/-- Sum of cross products of consecutive ring vertices, closing the ring back
to `first`. -/
def shoelaceSum (first : Coord) : List Coord → ℚ
  | [] => 0
  | [a] => crossProd a first
  | a :: b :: rest => crossProd a b + shoelaceSum first (b :: rest)

/-- Signed area of one ring by the shoelace formula. -/
def ringArea : List Coord → ℚ
  | [] => 0
  | c :: rest => shoelaceSum c (c :: rest) / 2

/-- Signed polygon area: outer ring positive contribution, holes subtracted. -/
def polyArea : List (List Coord) → ℚ
  | [] => 0
  | outer :: holes => ringArea outer - (holes.map ringArea).sum

/-- Modelled from the spec: the `Area::signed_area` scalar kernel (the `Area`
trait impl is not under `src/`). Per row, planar area by the shoelace formula
over each ring, outer ring positive and holes subtracted, summing parts for
multi-geometries; zero-dimensional and one-dimensional kinds have area zero. -/
def GeomPrim.signedArea : GeomPrim → ℚ
  | .point _ => 0
  | .lineString _ => 0
  | .polygon rings => polyArea rings
  | .multiPoint _ => 0
  | .multiLineString _ => 0
  | .multiPolygon ps => (ps.map polyArea).sum

def Geom.signedArea : Geom → ℚ
  | .prim g => g.signedArea
  | .collection gs => (gs.map GeomPrim.signedArea).sum

/-- Modelled from the spec: `signed_area` over an array's decoded rows; null
input rows produce null output rows. -/
def signed_area (arr : List (Option Geom)) : List (Option ℚ) :=
  arr.map (Option.map Geom.signedArea)

/-- Modelled from the spec: `unsigned_area` over an array's decoded rows;
"unsigned area is the absolute value", null rows stay null. -/
def unsigned_area (arr : List (Option Geom)) : List (Option ℚ) :=
  arr.map (Option.map (fun g => |g.signedArea|))

/-! The narrow interface to the underlying Arrow tabular library
(`arrow_schema` / `arrow_array`), which the core consumes only through batch
construction, column access, field metadata lookup, and schema equality. -/

/-- Arrow physical data types, abstract tags; `geoPhysical t` stands for the
physical layout of a geometry array of type `t`. -/
inductive ArrowDataType
  | uint8
  | int32
  | utf8
  | float64
  | geoPhysical (t : GeoDataType)
deriving DecidableEq

/-- An Arrow schema field: name, data type, nullability and per-field
metadata (an association list of key/value strings). Equality is structural
over all components, as in the derived `PartialEq` of `arrow_schema::Field`. -/
structure Field where
  name : String
  dataType : ArrowDataType
  nullable : Bool
  metadata : List (String × String)
deriving DecidableEq

/-- An Arrow schema: an ordered field list plus schema-level metadata. -/
structure ArrowSchema where
  fields : List Field
  metadata : List (String × String)
deriving DecidableEq

/-- The field written when a geometry array of this type is placed into a
table: physical type plus the `ARROW:extension:name` metadata entry. -/
def GeoDataType.to_field (t : GeoDataType) (name : String) (nullable : Bool) : Field :=
  { name := name
    dataType := .geoPhysical t
    nullable := nullable
    metadata := [("ARROW:extension:name", t.extensionName)] }

/-- The recognized GeoArrow/WKB extension identifiers,
`GEOARROW_EXTENSION_NAMES` in `src/src/table.rs`. -/
def geoarrowExtensionNames : List String :=
  [ "geoarrow.point"
  , "geoarrow.linestring"
  , "geoarrow.polygon"
  , "geoarrow.multipoint"
  , "geoarrow.multilinestring"
  , "geoarrow.multipolygon"
  , "geoarrow.geometry"
  , "geoarrow.geometrycollection"
  , "geoarrow.wkb"
  , "ogc.wkb" ]

/-- A field is a geometry column when its `ARROW:extension:name` metadata
value is one of the recognized identifiers; the membership test appears in
`src/src/table.rs` (`Table::from_arrow`, against `GEOARROW_EXTENSION_NAMES`). -/
def Field.isGeometryColumn (f : Field) : Bool :=
  match f.metadata.lookup "ARROW:extension:name" with
  | some n => decide (n ∈ geoarrowExtensionNames)
  | none => false

/-- An Arrow array reference (`ArrayRef`): either a non-geometry data column
(tracked by its type and row count) or a geometry array carried through its
decoded row view. -/
inductive ArrayRef
  | data (dt : ArrowDataType) (numRows : Nat)
  | geo (t : GeoDataType) (rows : List (Option Geom))
deriving DecidableEq

def ArrayRef.dataType : ArrayRef → ArrowDataType
  | .data dt _ => dt
  | .geo t _ => .geoPhysical t

def ArrayRef.len : ArrayRef → Nat
  | .data _ n => n
  | .geo _ rows => rows.length

/-- A record batch: its own schema reference plus one array per column. -/
structure RecordBatch where
  schema : ArrowSchema
  columns : List ArrayRef
deriving DecidableEq

def RecordBatch.numRows (b : RecordBatch) : Nat :=
  (b.columns.head?.map ArrayRef.len).getD 0

/-! Error and outcome model. `src/src/table.rs` surfaces errors as
`GeoArrowError` values; each constructor below corresponds to one distinct
error site of the embedded code (`General("Schema is not consistent…")`,
`General("empty input")`, the ambiguous-geometry-column messages, the
spec's `CastError`, and errors propagated from the Arrow layer).
`Outcome.panic` marks a Rust panic (out-of-bounds slice indexing), which is
not a value-level error. -/

inductive GeoErr
  | schemaMismatch
  | emptyInput
  | ambiguousGeometryColumn
  | castError
  | lengthMismatch
  | general
  | arrowError
deriving DecidableEq

inductive Outcome (α : Type)
  | ok (a : α)
  | err (e : GeoErr)
  | panic
deriving DecidableEq

instance {ε α : Type} [DecidableEq ε] [DecidableEq α] : DecidableEq (Except ε α) :=
  fun a b =>
    match a, b with
    | .ok x, .ok y =>
      if h : x = y then isTrue (by rw [h]) else isFalse (by intro hc; cases hc; exact h rfl)
    | .error x, .error y =>
      if h : x = y then isTrue (by rw [h]) else isFalse (by intro hc; cases hc; exact h rfl)
    | .ok _, .error _ => isFalse (by intro hc; cases hc)
    | .error _, .ok _ => isFalse (by intro hc; cases hc)

/-- `arrow_array::RecordBatch::try_new`: requires at least one column, one
column per schema field, matching data types, and equal column lengths. -/
def RecordBatch.tryNew (schema : ArrowSchema) (columns : List ArrayRef) :
    Except GeoErr RecordBatch :=
  if columns.isEmpty then .error .arrowError
  else if columns.length ≠ schema.fields.length then .error .arrowError
  else if (columns.zip schema.fields).all (fun p => p.1.dataType = p.2.dataType) then
    if columns.all (fun c => c.len = ((columns.head?.map ArrayRef.len).getD 0)) then
      .ok ⟨schema, columns⟩
    else .error .arrowError
  else .error .arrowError

/-- A chunked geometry array: one geometry data type shared by an ordered
list of chunks, each chunk a list of decoded optional-geometry rows. -/
structure ChunkedGeom where
  geoType : GeoDataType
  chunks : List (List (Option Geom))
deriving DecidableEq

/-- Modelled from the spec: `ChunkedGeometryArrayTrait::extension_field`
(defined in `src/chunked_array`, not under `src/`): the extension field
descriptor for the chunked array, named `geometry` and nullable. -/
def ChunkedGeom.extensionField (c : ChunkedGeom) : Field :=
  c.geoType.to_field "geometry" true

/-- The per-chunk Arrow arrays of a chunked geometry array
(`array_refs` on the Rust side). -/
def ChunkedGeom.arrayRefs (c : ChunkedGeom) : List ArrayRef :=
  c.chunks.map (fun ch => .geo c.geoType ch)

/-- Modelled from the spec: `from_arrow_chunks` (defined in
`src/chunked_array`, not under `src/`): reconstruct a chunked geometry array
from Arrow array slices and their field; the geometry data type is determined
by the field, and every chunk must be a geometry array of that type. -/
def from_arrow_chunks (slices : List ArrayRef) (field : Field) :
    Except GeoErr ChunkedGeom :=
  match field.dataType with
  | .geoPhysical t =>
    match slices.mapM (fun s =>
        match s with
        | .geo t2 rows => if t2 = t then some rows else none
        | .data _ _ => none) with
    | some chunks => .ok ⟨t, chunks⟩
    | none => .error .general
  | _ => .error .general

/-! The casting engine, `cast` on chunked arrays. The implementation lives in
`src/algorithm/native`, not under `src/`, so it is modelled from the spec
(sections 4.2 and 4.4): one target-type decision for all chunks; lossless
layout swaps, 2D-to-3D widening and 32-to-64 offset widening are accepted;
dimension narrowing and offset narrowing that could overflow are rejected;
any concrete kind upcasts into Mixed or GeometryCollection; a downcast from
Mixed or GeometryCollection to a concrete kind is accepted only for uniform
contents. -/

def dimCastOk (s t : GeoDataType) : Bool :=
  match s.dimOf, t.dimOf with
  | some .xyz, some .xy => false
  | _, _ => true

/-- Largest offset representable with 32-bit offsets. -/
def maxOffset32 : Nat := 2147483647

def chunkCoordCount (ch : List (Option Geom)) : Nat :=
  (ch.map (fun r => (r.map Geom.coordCount).getD 0)).sum

def widthCastOk (c : ChunkedGeom) (t : GeoDataType) : Bool :=
  match c.geoType.width, t.width with
  | .w64, .w32 => c.chunks.all (fun ch => chunkCoordCount ch ≤ maxOffset32)
  | _, _ => true

def allRowsOfKind (c : ChunkedGeom) (k : GeoKind) : Bool :=
  c.chunks.all (fun ch => ch.all (fun r =>
    match r with
    | none => true
    | some g => g.kind = k))

def allRowsSingleOfKind (c : ChunkedGeom) (k : GeoKind) : Bool :=
  c.chunks.all (fun ch => ch.all (fun r =>
    match r with
    | none => true
    | some (.collection [g]) => g.kind = k
    | some _ => false))

def isConcreteKind (k : GeoKind) : Bool :=
  match k with
  | .mixed => false
  | .geometryCollection => false
  | .wkb => false
  | _ => true

def kindCastOk (c : ChunkedGeom) (t : GeoDataType) : Bool :=
  let sk := c.geoType.kind
  let tk := t.kind
  if sk = tk then true
  else if isConcreteKind sk ∧ (tk = .mixed ∨ tk = .geometryCollection) then true
  else if sk = .mixed ∧ isConcreteKind tk then allRowsOfKind c tk
  else if sk = .geometryCollection ∧ isConcreteKind tk then allRowsSingleOfKind c tk
  else false

/-- Row transformation accompanying a kind change: wrapping into a
collection on upcast to GeometryCollection, unwrapping a single-element
collection on downcast from it; other supported kind moves keep the decoded
value. -/
def castRowTo (sk tk : GeoKind) (g : Geom) : Geom :=
  if tk = .geometryCollection ∧ sk ≠ .geometryCollection then
    match g with
    | .prim p => .collection [p]
    | c => c
  else if sk = .geometryCollection ∧ isConcreteKind tk then
    match g with
    | .collection [p] => .prim p
    | c => c
  else g

/-- Modelled from the spec: `cast` over a chunked geometry array
(section 4.2 rules, applied with one decision for all chunks per
section 4.4); fails with `CastError` when the target is not representable. -/
def castGeo (c : ChunkedGeom) (t : GeoDataType) : Except GeoErr ChunkedGeom :=
  if dimCastOk c.geoType t ∧ widthCastOk c t ∧ kindCastOk c t then
    .ok ⟨t, c.chunks.map (fun ch => ch.map (Option.map (castRowTo c.geoType.kind t.kind)))⟩
  else .error .castError

/-! The Table abstraction, `src/src/table.rs`. -/

/-- An Arrow table that may contain one or more geospatial columns: a schema
plus an ordered list of record batches. -/
structure Table where
  schema : ArrowSchema
  batches : List RecordBatch
deriving DecidableEq

/-- `Table::try_new` (`src/src/table.rs`): every batch's field list must equal
the schema's field list. Schema-level metadata is not part of the comparison
(the code compares `batch.schema().fields()` with `schema.fields()` only);
a differing batch produces the schema-mismatch error and no table. -/
def Table.try_new (batches : List RecordBatch) (schema : ArrowSchema) : Outcome Table :=
  if ∀ b ∈ batches, b.schema.fields = schema.fields then
    .ok ⟨schema, batches⟩
  else .err .schemaMismatch

/-- `Table::len`: total row count over all batches. -/
def Table.len (t : Table) : Nat :=
  t.batches.foldl (fun sum b => sum + b.numRows) 0

/-- `Table::is_empty`. -/
def Table.is_empty (t : Table) : Bool :=
  t.len = 0

/-- The batch-rebuilding loop of `Table::set_column`: Rust zips the existing
batches with the supplied arrays (so surplus batches are dropped), writes the
array at position `i` of each zipped batch (panicking when `i` is out of
bounds of the batch's columns) and revalidates with
`RecordBatch::try_new`, propagating its error. -/
def setColumnBatches (sch : ArrowSchema) (i : Nat) :
    List (RecordBatch × ArrayRef) → Outcome (List RecordBatch)
  | [] => .ok []
  | (b, a) :: rest =>
    if i < b.columns.length then
      match RecordBatch.tryNew sch (b.columns.set i a) with
      | .error e => .err e
      | .ok nb =>
        match setColumnBatches sch i rest with
        | .ok bs => .ok (nb :: bs)
        | .err e => .err e
        | .panic => .panic
    else .panic

/-- `Table::set_column` (`src/src/table.rs`): replace field `i` in the schema
(`fields[i] = field` panics when `i` is out of bounds), keep the schema
metadata, and rebuild the batches pairwise with the supplied arrays. -/
def Table.set_column (t : Table) (i : Nat) (field : Field) (column : List ArrayRef) :
    Outcome Table :=
  if i < t.schema.fields.length then
    let newSchema : ArrowSchema := ⟨t.schema.fields.set i field, t.schema.metadata⟩
    match setColumnBatches newSchema i (t.batches.zip column) with
    | .ok bs => .ok ⟨newSchema, bs⟩
    | .err e => .err e
    | .panic => .panic
  else .panic

/-- The batch-building loop of `Table::from_arrow_and_geometry`: each batch
zipped with a geometry chunk gets the chunk appended as a trailing column and
is revalidated through `RecordBatch::try_new`. -/
def appendGeomBatches (sch : ArrowSchema) (gt : GeoDataType) :
    List (RecordBatch × List (Option Geom)) → Except GeoErr (List RecordBatch)
  | [] => .ok []
  | (b, chunk) :: rest =>
    match RecordBatch.tryNew sch (b.columns ++ [.geo gt chunk]) with
    | .error e => .error e
    | .ok nb =>
      match appendGeomBatches sch gt rest with
      | .error e => .error e
      | .ok nbs => .ok (nb :: nbs)

/-- `Table::from_arrow_and_geometry` (`src/src/table.rs`): reject an empty
batch list; append the geometry's extension field to the schema's fields
(`SchemaBuilder::from(schema.fields())` carries no schema metadata); zip the
batches with the geometry chunks, appending one chunk per batch; finish with
`Table::try_new`. -/
def Table.from_arrow_and_geometry (batches : List RecordBatch) (schema : ArrowSchema)
    (geometry : ChunkedGeom) : Outcome Table :=
  if batches.isEmpty then .err .emptyInput
  else
    match appendGeomBatches ⟨schema.fields ++ [geometry.extensionField], []⟩
        geometry.geoType (batches.zip geometry.chunks) with
    | .error e => .err e
    | .ok newBatches =>
      Table.try_new newBatches ⟨schema.fields ++ [geometry.extensionField], []⟩

/-- The per-batch column gather `batch.column(index)` used by
`cast_geometry`, `parse_geometry_to_native` and `geometry_column`; Arrow's
`column(i)` panics when `i` is out of bounds, hence the `Option`. -/
def Table.columnsAt (t : Table) (i : Nat) : Option (List ArrayRef) :=
  t.batches.mapM (fun b => b.columns[i]?)

/-- `Table::cast_geometry` (`src/src/table.rs`): read the field at `index`
(`Schema::field` panics on a bad index), rebuild the chunked geometry array
from the batches, cast it, and replace the column with the casted arrays
under the target type's field. -/
def Table.cast_geometry (t : Table) (index : Nat) (toType : GeoDataType) : Outcome Table :=
  match t.schema.fields[index]? with
  | none => .panic
  | some origField =>
    match t.columnsAt index with
    | none => .panic
    | some slices =>
      match from_arrow_chunks slices origField with
      | .error e => .err e
      | .ok chunked =>
        match castGeo chunked toType with
        | .error e => .err e
        | .ok casted =>
          t.set_column index (toType.to_field origField.name origField.nullable)
            casted.arrayRefs

/-- The uniform concrete kind of a list of decoded rows, when one exists. -/
def uniformKind (rows : List (Option Geom)) : Option GeoKind :=
  match rows.filterMap id with
  | [] => none
  | g :: gs => if gs.all (fun h => h.kind = g.kind) then some g.kind else none

/-- The concrete geometry data type of a given kind at the given layout,
dimension and offset width (falling back to Mixed for non-concrete kinds). -/
def concreteType (k : GeoKind) (ct : CoordType) (d : Dimension) (w : OffsetWidth) :
    GeoDataType :=
  match k, w with
  | .point, _ => .Point ct d
  | .lineString, .w32 => .LineString ct d
  | .lineString, .w64 => .LargeLineString ct d
  | .polygon, .w32 => .Polygon ct d
  | .polygon, .w64 => .LargePolygon ct d
  | .multiPoint, .w32 => .MultiPoint ct d
  | .multiPoint, .w64 => .LargeMultiPoint ct d
  | .multiLineString, .w32 => .MultiLineString ct d
  | .multiLineString, .w64 => .LargeMultiLineString ct d
  | .multiPolygon, .w32 => .MultiPolygon ct d
  | .multiPolygon, .w64 => .LargeMultiPolygon ct d
  | .geometryCollection, .w32 => .GeometryCollection ct d
  | .geometryCollection, .w64 => .LargeGeometryCollection ct d
  | _, .w32 => .Mixed ct d
  | _, .w64 => .LargeMixed ct d

def coordTypeOf : GeoDataType → CoordType
  | .Point ct _ => ct
  | .LineString ct _ => ct
  | .LargeLineString ct _ => ct
  | .Polygon ct _ => ct
  | .LargePolygon ct _ => ct
  | .MultiPoint ct _ => ct
  | .LargeMultiPoint ct _ => ct
  | .MultiLineString ct _ => ct
  | .LargeMultiLineString ct _ => ct
  | .MultiPolygon ct _ => ct
  | .LargeMultiPolygon ct _ => ct
  | .Mixed ct _ => ct
  | .LargeMixed ct _ => ct
  | .GeometryCollection ct _ => ct
  | .LargeGeometryCollection ct _ => ct
  | .WKB => .interleaved
  | .LargeWKB => .interleaved

/-- Modelled from the spec: the WKB decoder `from_wkb` (in `src/io/wkb`, not
under `src/`). A WKB array's rows appear here through their decoded geometry
denotation; the decoder materializes into the most general representation —
Mixed at the target's dimension and offset width — and, when downcasting is
requested, tightens a kind-homogeneous result to the concrete kind present. -/
def from_wkb (chunk : List (Option Geom)) (target : GeoDataType)
    (shouldDowncast : Bool) : Except GeoErr (GeoDataType × List (Option Geom)) :=
  let ct := coordTypeOf target
  let d := (target.dimOf).getD .xy
  let w := target.width
  let mixedType := concreteType .mixed ct d w
  if shouldDowncast then
    match uniformKind chunk with
    | some k => if isConcreteKind k then .ok (concreteType k ct d w, chunk)
        else .ok (mixedType, chunk)
    | none => .ok (mixedType, chunk)
  else .ok (mixedType, chunk)

/-- Modelled from the spec: `from_geoarrow_chunks` (in `src/chunked_array`,
not under `src/`): assemble parsed chunks into one chunked array; all chunks
must share one geometry data type. -/
def from_geoarrow_chunks (parsed : List (GeoDataType × List (Option Geom))) :
    Except GeoErr ChunkedGeom :=
  match parsed with
  | [] => .error .general
  | (t, rows) :: rest =>
    if rest.all (fun p => p.1 = t) then
      .ok ⟨t, rows :: rest.map Prod.snd⟩
    else .error .general

/-- Modelled from the spec: chunked `downcast` (in `src/algorithm/native`,
not under `src/`): one narrowing decision from the aggregate contents of all
chunks, so every chunk keeps the same type. -/
def downcastChunked (c : ChunkedGeom) : ChunkedGeom :=
  match uniformKind c.chunks.flatten with
  | some k =>
    if isConcreteKind k then
      ⟨concreteType k (coordTypeOf c.geoType) ((c.geoType.dimOf).getD .xy)
          c.geoType.width, c.chunks⟩
    else c
  | none => c

/-- The WKB-reparsing arm of `Table::parse_geometry_to_native`: each chunk is
decoded via `from_wkb` with downcasting enabled, the chunks are reassembled,
and the aggregate is downcast once more; a non-WKB column passes through. -/
def parseIfWkb (c : ChunkedGeom) (target : GeoDataType) : Except GeoErr ChunkedGeom :=
  match c.geoType with
  | .WKB => do
    let parsed ← c.chunks.mapM (fun chunk => from_wkb chunk target true)
    let assembled ← from_geoarrow_chunks parsed
    .ok (downcastChunked assembled)
  | .LargeWKB => do
    let parsed ← c.chunks.mapM (fun chunk => from_wkb chunk target true)
    let assembled ← from_geoarrow_chunks parsed
    .ok (downcastChunked assembled)
  | _ => .ok c

/-- `Table::parse_geometry_to_native` (`src/src/table.rs`): default the
target type to `LargeMixed` at 2D with the default (interleaved) coordinate
layout; read the field at `index` (panicking on a bad index); when the table
has zero rows, skip WKB inspection and retype the column via `set_column`
with an empty array list; otherwise rebuild the chunked array, reparse WKB
columns, and replace the column with the decoded result. -/
def Table.parse_geometry_to_native (t : Table) (index : Nat)
    (targetOpt : Option GeoDataType) : Outcome Table :=
  let target := targetOpt.getD (.LargeMixed .interleaved .xy)
  match t.schema.fields[index]? with
  | none => .panic
  | some origField =>
    if t.is_empty then
      t.set_column index (target.to_field origField.name origField.nullable) []
    else
      match t.columnsAt index with
      | none => .panic
      | some slices =>
        match from_arrow_chunks slices origField with
        | .error e => .err e
        | .ok chunked =>
          match parseIfWkb chunked target with
          | .error e => .err e
          | .ok newGeometry =>
            t.set_column index
              (newGeometry.geoType.to_field origField.name origField.nullable)
              newGeometry.arrayRefs

/-- Modelled from the spec: `GeoSchemaExt::geometry_columns` (in
`src/schema`, not under `src/`): the indices of the schema fields whose
extension metadata identifies them as geometry columns. -/
def ArrowSchema.geometryColumns (s : ArrowSchema) : List Nat :=
  (s.fields.enum.filterMap (fun p => if p.2.isGeometryColumn then some p.1 else none))

/-- `Table::default_geometry_column_idx` (`src/src/table.rs`): the single
geometry column index; an error unless exactly one geometry column exists. -/
def Table.default_geometry_column_idx (t : Table) : Outcome Nat :=
  match t.schema.geometryColumns with
  | [i] => .ok i
  | _ => .err .ambiguousGeometryColumn

/-- The indexed fetch shared by `Table::geometry_column`: read the field at
the index (panicking when out of range), gather the per-batch columns
(panicking when out of range), and reconstruct the chunked array. -/
def Table.geometryColumnAt (t : Table) (i : Nat) : Outcome ChunkedGeom :=
  match t.schema.fields[i]? with
  | none => .panic
  | some field =>
    match t.columnsAt i with
    | none => .panic
    | some slices =>
      match from_arrow_chunks slices field with
      | .ok c => .ok c
      | .error e => .err e

/-- `Table::geometry_column` (`src/src/table.rs`): with an explicit index,
fetch that column; with `none`, resolve the single geometry column and fail
when the count of geometry columns is not exactly one. -/
def Table.geometry_column (t : Table) (index : Option Nat) : Outcome ChunkedGeom :=
  match index with
  | some i => t.geometryColumnAt i
  | none =>
    match t.schema.geometryColumns with
    | [i] => t.geometryColumnAt i
    | _ => .err .ambiguousGeometryColumn

/-! Concrete fixtures used by witnesses and counterexamples. -/

def ptType : GeoDataType := .Point .interleaved .xy

def sepType : GeoDataType := .Point .separated .xy

def ptField : Field := ptType.to_field "geometry" true

def sepField : Field := sepType.to_field "geometry" true

def u8Field : Field := ⟨"u8", .uint8, true, []⟩

def strField : Field := ⟨"s", .utf8, true, []⟩

def wkbField : Field := GeoDataType.WKB.to_field "geometry" true

def lmField : Field := (GeoDataType.LargeMixed .interleaved .xy).to_field "geometry" true

def schemaThree : ArrowSchema := ⟨[u8Field, strField, ptField], []⟩

def batchTwo : RecordBatch := ⟨⟨[u8Field, strField], []⟩, [.data .uint8 1, .data .utf8 1]⟩

def schemaOne : ArrowSchema := ⟨[u8Field], []⟩

def batchOne : RecordBatch := ⟨schemaOne, [.data .uint8 1]⟩

def geomOneChunk : ChunkedGeom := ⟨ptType, [[none]]⟩

def c3Schema : ArrowSchema := ⟨[u8Field, ptField], []⟩

def c3Expected : Table := ⟨c3Schema, [⟨c3Schema, [.data .uint8 1, .geo ptType [none]]⟩]⟩

def tBad : Table := ⟨⟨[u8Field], []⟩, []⟩

def pt0 : Geom := .prim (.point (1, 2))

def tCast : Table := ⟨⟨[ptField], []⟩, [⟨⟨[ptField], []⟩, [.geo ptType [some pt0]]⟩]⟩

def castSlices : List ArrayRef := [.geo ptType [some pt0]]

def castChunked : ChunkedGeom := ⟨ptType, [[some pt0]]⟩

def castCasted : ChunkedGeom := ⟨sepType, [[some pt0]]⟩

def tCastExpected : Table :=
  ⟨⟨[sepField], []⟩, [⟨⟨[sepField], []⟩, [.geo sepType [some pt0]]⟩]⟩

def tEmpty : Table := ⟨⟨[wkbField], []⟩, []⟩

def tEmptyParsed : Table := ⟨⟨[lmField], []⟩, []⟩

def zeroRowBatch : RecordBatch := ⟨⟨[wkbField], []⟩, [.geo .WKB []]⟩

def tZeroRows : Table := ⟨⟨[wkbField], []⟩, [zeroRowBatch]⟩

def g0 : Geom := .prim (.point (0, 1))

def g1 : Geom := .prim (.point (1, 2))

/-! Helper lemmas shared by the claim proofs. -/

theorem try_new_eq_ok {batches : List RecordBatch} {schema : ArrowSchema} {t : Table}
    (h : Table.try_new batches schema = .ok t) : t = ⟨schema, batches⟩ := by
  unfold Table.try_new at h
  split at h
  · exact (Outcome.ok.inj h).symm
  · exact Outcome.noConfusion h

theorem appendGeomBatches_length (sch : ArrowSchema) (gt : GeoDataType) :
    ∀ (l : List (RecordBatch × List (Option Geom))) (bs : List RecordBatch),
      appendGeomBatches sch gt l = .ok bs → bs.length = l.length := by
  intro l
  induction l with
  | nil =>
    intro bs h
    cases (Except.ok.inj h)
    rfl
  | cons p rest ih =>
    intro bs h
    obtain ⟨b, chunk⟩ := p
    unfold appendGeomBatches at h
    cases htn : RecordBatch.tryNew sch (b.columns ++ [.geo gt chunk]) with
    | error e => rw [htn] at h; exact Except.noConfusion h
    | ok nb =>
      rw [htn] at h
      cases hr : appendGeomBatches sch gt rest with
      | error e => rw [hr] at h; exact Except.noConfusion h
      | ok nbs =>
        rw [hr] at h
        cases (Except.ok.inj h)
        simp [ih nbs hr]

theorem setColumnBatches_nil (sch : ArrowSchema) (i : Nat) :
    setColumnBatches sch i [] = .ok [] := rfl

theorem set_column_nil (t : Table) (i : Nat) (fld : Field)
    (hi : i < t.schema.fields.length) :
    t.set_column i fld [] =
      .ok ⟨⟨t.schema.fields.set i fld, t.schema.metadata⟩, []⟩ := by
  simp [Table.set_column, hi, List.zip_nil_right, setColumnBatches]

theorem parse_empty_path (t : Table) (i : Nat) (f : Field) (tgt : Option GeoDataType)
    (hf : t.schema.fields[i]? = some f) (he : t.is_empty = true) :
    t.parse_geometry_to_native i tgt =
      t.set_column i ((tgt.getD (.LargeMixed .interleaved .xy)).to_field f.name f.nullable)
        [] := by
  simp [Table.parse_geometry_to_native, hf, he]

theorem lt_length_of_getElem?_eq_some {α : Type} {l : List α} {i : Nat} {a : α}
    (h : l[i]? = some a) : i < l.length := by
  by_contra hno
  rw [List.getElem?_eq_none (Nat.le_of_not_lt hno)] at h
  exact Option.noConfusion h

theorem foldl_rows_zero :
    ∀ (bs : List RecordBatch), (∀ b ∈ bs, b.numRows = 0) →
      ∀ n, bs.foldl (fun sum b => sum + b.numRows) n = n := by
  intro bs
  induction bs with
  | nil => intro _ n; rfl
  | cons b rest ih =>
    intro h n
    have hb := h b (List.mem_cons_self b rest)
    simp only [List.foldl_cons, hb, Nat.add_zero]
    exact ih (fun x hx => h x (List.mem_cons_of_mem b hx)) n

theorem is_empty_of_all_zero (t : Table) (h : ∀ b ∈ t.batches, b.numRows = 0) :
    t.is_empty = true := by
  simp [Table.is_empty, Table.len, foldl_rows_zero t.batches h 0]

theorem zip_getElem?_of_lt {α β : Type} {as : List α} {bs : List β} {i : Nat}
    (ha : i < as.length) (hb : i < bs.length) :
    (as.zip bs)[i]? = some (as[i], bs[i]) := by
  have hz : i < (as.zip bs).length := by
    rw [List.length_zip]
    exact lt_min ha hb
  rw [List.getElem?_eq_getElem hz]
  simp [List.getElem_zip]

/-! Claim theorems. -/

/-- C1: `Table::try_new(batches, schema)` returns `Ok` exactly when every
batch's field list equals the schema's field list; schema-level metadata is
excluded from the comparison (only the `fields` components take part, so the
condition on the right does not mention either metadata map), and for any
differing batch the call fails with the schema-mismatch error, constructing
no table. -/
theorem try_new_schema_invariant (batches : List RecordBatch) (schema : ArrowSchema) :
    (Table.try_new batches schema = .ok ⟨schema, batches⟩ ↔
      ∀ b ∈ batches, b.schema.fields = schema.fields)
    ∧ ((¬ ∀ b ∈ batches, b.schema.fields = schema.fields) →
      Table.try_new batches schema = .err .schemaMismatch) := by
  unfold Table.try_new
  by_cases h : ∀ b ∈ batches, b.schema.fields = schema.fields
  · simp [h]
  · simp [h]

/-- Witness for C1: a two-column batch against a three-field schema fails
with the schema-mismatch error. -/
theorem try_new_schema_invariant_witness :
    Table.try_new [batchTwo] schemaThree = .err .schemaMismatch :=
  (try_new_schema_invariant [batchTwo] schemaThree).2 (by decide)

/-- C2 counterexample: `affine_transform` on a two-row array with a per-row
transform vector of length one does not fail — its result type has no error
channel at all — it zips and silently truncates, returning a one-row array. -/
theorem affine_transform_mismatch_counterexample :
    (affine_transform [some g0, some g1] (.array [.identTransform])).length = 1 := by
  decide

/-- C2 amended: `affine_transform` cannot fail; with a per-row vector its
result has `min` of the two lengths (so disagreeing lengths truncate
silently, and agreeing lengths — like a scalar source — preserve the array's
length). -/
theorem affine_transform_length (A : List (Option Geom)) (v : List AffineTransform)
    (tr : AffineTransform) :
    (affine_transform A (.array v)).length = min A.length v.length
    ∧ (affine_transform A (.scalar tr)).length = A.length := by
  constructor <;> simp [affine_transform, broadcastZip]

/-- C3 counterexample: two one-row batches plus a one-chunk geometry array
(chunk count 1 disagreeing with batch count 2) succeed — the zip truncates to
a single batch — instead of failing. -/
theorem from_arrow_and_geometry_counterexample :
    Table.from_arrow_and_geometry [batchOne, batchOne] schemaOne geomOneChunk
      = .ok c3Expected := by decide

/-- C3 amended: `from_arrow_and_geometry` fails with the empty-input error
when `batches` is empty; it does not fail on a chunk-count mismatch — any
successful result carries the input schema's fields with the geometry's
extension field appended as the trailing column, and exactly
`min (batch count) (chunk count)` batches (silent truncation). -/
theorem from_arrow_and_geometry_shape (batches : List RecordBatch)
    (schema : ArrowSchema) (geometry : ChunkedGeom) :
    (batches = [] →
      Table.from_arrow_and_geometry batches schema geometry = .err .emptyInput)
    ∧ (∀ t, Table.from_arrow_and_geometry batches schema geometry = .ok t →
      t.schema.fields = schema.fields ++ [geometry.extensionField]
      ∧ t.batches.length = min batches.length geometry.chunks.length) := by
  constructor
  · intro h
    subst h
    rfl
  · intro t h
    unfold Table.from_arrow_and_geometry at h
    split at h
    · exact Outcome.noConfusion h
    · cases hap : appendGeomBatches ⟨schema.fields ++ [geometry.extensionField], []⟩
          geometry.geoType (batches.zip geometry.chunks) with
      | error e => rw [hap] at h; exact Outcome.noConfusion h
      | ok nbs =>
        rw [hap] at h
        cases try_new_eq_ok h
        refine ⟨rfl, ?_⟩
        rw [show (Table.mk ⟨schema.fields ++ [geometry.extensionField], []⟩ nbs).batches
              = nbs from rfl,
            appendGeomBatches_length _ _ _ _ hap, List.length_zip]

/-- Witness for C3's amended statement: the empty-batch error and, at the
concrete truncating input of the counterexample, the appended trailing field
and the truncated batch count. -/
theorem from_arrow_and_geometry_shape_witness :
    Table.from_arrow_and_geometry [] schemaOne geomOneChunk = .err .emptyInput
    ∧ c3Expected.schema.fields = schemaOne.fields ++ [geomOneChunk.extensionField]
    ∧ c3Expected.batches.length = min 2 1 :=
  ⟨(from_arrow_and_geometry_shape [] schemaOne geomOneChunk).1 rfl,
   ((from_arrow_and_geometry_shape [batchOne, batchOne] schemaOne geomOneChunk).2
      c3Expected (by decide)).1,
   ((from_arrow_and_geometry_shape [batchOne, batchOne] schemaOne geomOneChunk).2
      c3Expected (by decide)).2⟩

/-- C4 counterexample: on a single-column table, `cast_geometry` at index 5
panics — `Schema::field(5)` indexes the field vector out of bounds — rather
than returning a value-level index error to the caller. -/
theorem cast_geometry_bad_index_counterexample :
    Table.cast_geometry tBad 5 sepType = .panic := by decide

/-- C4 amended: for an index that is not a valid column index,
`cast_geometry` panics (a crash, not a value-level error); for a valid index
whose reconstructed column cannot represent the target type it fails with the
underlying cast error, and otherwise it replaces the column (through
`set_column`) with the casted arrays under the target type's field. -/
theorem cast_geometry_routes (t : Table) (i : Nat) (toType : GeoDataType) :
    (t.schema.fields[i]? = none → t.cast_geometry i toType = .panic)
    ∧ (∀ f slices chunked, t.schema.fields[i]? = some f →
      t.columnsAt i = some slices →
      from_arrow_chunks slices f = .ok chunked →
      (castGeo chunked toType = .error .castError →
        t.cast_geometry i toType = .err .castError)
      ∧ (∀ casted, castGeo chunked toType = .ok casted →
        t.cast_geometry i toType =
          t.set_column i (toType.to_field f.name f.nullable) casted.arrayRefs)) := by
  constructor
  · intro h
    simp [Table.cast_geometry, h]
  · intro f slices chunked hf hs hc
    exact ⟨fun hcast => by simp [Table.cast_geometry, hf, hs, hc, hcast],
           fun casted hcast => by simp [Table.cast_geometry, hf, hs, hc, hcast]⟩

/-- Witness for C4's amended statement: a one-point table casts its geometry
column from interleaved to separated coordinates, replacing the column. -/
theorem cast_geometry_routes_witness :
    Table.cast_geometry tCast 0 sepType = .ok tCastExpected := by
  have h := ((cast_geometry_routes tCast 0 sepType).2 ptField castSlices castChunked
      (by decide) (by decide) (by decide)).2 castCasted (by decide)
  exact h.trans (by decide)

/-- C5: on a table with zero total rows, `parse_geometry_to_native` at a
valid index returns `Ok`, skips WKB inspection entirely, and retypes the
column to the requested target type (defaulting to `LargeMixed` 2D when the
target is omitted), with zero batches/chunks in the result. -/
theorem parse_geometry_to_native_empty (t : Table) (i : Nat) (f : Field)
    (tgt : Option GeoDataType)
    (hf : t.schema.fields[i]? = some f) (he : t.is_empty = true) :
    t.parse_geometry_to_native i tgt =
      .ok ⟨⟨t.schema.fields.set i
            ((tgt.getD (.LargeMixed .interleaved .xy)).to_field f.name f.nullable),
          t.schema.metadata⟩, []⟩ := by
  have hi : i < t.schema.fields.length := lt_length_of_getElem?_eq_some hf
  rw [parse_empty_path t i f tgt hf he, set_column_nil t i _ hi]

/-- Witness for C5: a table built from an empty batch list and a one-field
WKB schema is retyped to the default target with zero chunks, not an error. -/
theorem parse_geometry_to_native_empty_witness :
    Table.parse_geometry_to_native tEmpty 0 none = .ok tEmptyParsed := by
  have h := parse_geometry_to_native_empty tEmpty 0 wkbField none (by decide) (by decide)
  exact h.trans (by decide)

/-- C6: a null input row stays null under `affine_transform`, `signed_area`
and `unsigned_area`, and a valid input row never becomes null under
`affine_transform`, whenever the transform source covers every row (a scalar,
or a per-row vector at least as long as the array). -/
theorem null_rows_propagate (A : List (Option Geom))
    (tr : BroadcastableVec AffineTransform) (i : Nat)
    (hcov : tr.covers A.length = true) :
    (A[i]? = some none →
      (affine_transform A tr)[i]? = some none
      ∧ (signed_area A)[i]? = some none
      ∧ (unsigned_area A)[i]? = some none)
    ∧ (∀ g, A[i]? = some (some g) →
      ∃ g2, (affine_transform A tr)[i]? = some (some g2)) := by
  have harea : ∀ r : Option Geom, A[i]? = some r →
      (signed_area A)[i]? = some (r.map Geom.signedArea)
      ∧ (unsigned_area A)[i]? = some (r.map (fun g => |g.signedArea|)) := by
    intro r hr
    constructor <;> simp [signed_area, unsigned_area, List.getElem?_map, hr]
  have haff : ∀ r : Option Geom, A[i]? = some r →
      ∃ f : AffineTransform, (affine_transform A tr)[i]?
        = some (r.map (fun g => g.mapCoords f.apply)) := by
    intro r hr
    have hia : i < A.length := lt_length_of_getElem?_eq_some hr
    cases tr with
    | scalar a =>
      refine ⟨a, ?_⟩
      simp [affine_transform, broadcastZip, List.getElem?_map, hr]
    | array v =>
      have hiv : i < v.length := by
        simp only [BroadcastableVec.covers, decide_eq_true_eq] at hcov
        omega
      refine ⟨v[i], ?_⟩
      have hz := @zip_getElem?_of_lt _ _ A v i hia hiv
      have hA : A[i] = r := by
        rw [List.getElem?_eq_getElem hia] at hr
        exact Option.some.inj hr
      simp [affine_transform, broadcastZip, List.getElem?_map, hz, hA]
  constructor
  · intro hnull
    obtain ⟨f, hf⟩ := haff none hnull
    exact ⟨by simpa using hf, (harea none hnull).1, (harea none hnull).2⟩
  · intro g hg
    obtain ⟨f, hf⟩ := haff (some g) hg
    exact ⟨g.mapCoords f.apply, by simpa using hf⟩

/-- Witness for C6: the null first row of a two-row array stays null under
the (identity-)transform, the signed area and the unsigned area. -/
theorem null_rows_propagate_witness :
    (affine_transform [none, some g0] (.scalar .identTransform))[0]? = some none
    ∧ (signed_area [none, some g0])[0]? = some none
    ∧ (unsigned_area [none, some g0])[0]? = some none :=
  (null_rows_propagate [none, some g0] (.scalar .identTransform) 0 (by decide)).1
    (by decide)

/-- C7: row by row, `unsigned_area` is the absolute value of `signed_area`,
with null rows aligned (a null signed-area row is a null unsigned-area row). -/
theorem unsigned_area_abs_signed (A : List (Option Geom)) :
    unsigned_area A = (signed_area A).map (Option.map (fun q => |q|)) := by
  induction A with
  | nil => rfl
  | cons a rest ih =>
    cases a with
    | none =>
      simp only [unsigned_area, signed_area, List.map_cons, Option.map_none] at ih ⊢
      rw [ih]
      rfl
    | some g =>
      simp only [unsigned_area, signed_area, List.map_cons, Option.map_some] at ih ⊢
      rw [ih]
      rfl

/-- C8: a schema field is recognized as a geometry column exactly when its
`ARROW:extension:name` metadata value is one of the ten recognized
identifiers; absent metadata, or any value outside the set, means the field
is not a geometry column. -/
theorem is_geometry_column_iff (f : Field) :
    f.isGeometryColumn = true ↔
      ∃ n, f.metadata.lookup "ARROW:extension:name" = some n
        ∧ (n = "geoarrow.point" ∨ n = "geoarrow.linestring" ∨ n = "geoarrow.polygon"
          ∨ n = "geoarrow.multipoint" ∨ n = "geoarrow.multilinestring"
          ∨ n = "geoarrow.multipolygon" ∨ n = "geoarrow.geometry"
          ∨ n = "geoarrow.geometrycollection" ∨ n = "geoarrow.wkb"
          ∨ n = "ogc.wkb") := by
  unfold Field.isGeometryColumn
  cases h : f.metadata.lookup "ARROW:extension:name" with
  | none => simp [h]
  | some n => simp [h, geoarrowExtensionNames]

/-- Witness for C8: the extension field written for a point array is
recognized as a geometry column. -/
theorem is_geometry_column_iff_witness : ptField.isGeometryColumn = true :=
  (is_geometry_column_iff ptField).mpr ⟨"geoarrow.point", by decide, Or.inl rfl⟩

/-- C9: `default_geometry_column_idx` succeeds exactly when precisely one
geometry column exists — in particular it errors on a table with zero
geometry columns, not only when more than one exists — and
`geometry_column none` errors in exactly the same zero and more-than-one
cases, reducing to the indexed fetch of the unique column otherwise. -/
theorem single_geometry_column_resolution (t : Table) :
    (∀ i, t.default_geometry_column_idx = .ok i ↔ t.schema.geometryColumns = [i])
    ∧ (t.schema.geometryColumns = [] →
      t.default_geometry_column_idx = .err .ambiguousGeometryColumn
      ∧ t.geometry_column none = .err .ambiguousGeometryColumn)
    ∧ (∀ a b rest, t.schema.geometryColumns = a :: b :: rest →
      t.default_geometry_column_idx = .err .ambiguousGeometryColumn
      ∧ t.geometry_column none = .err .ambiguousGeometryColumn)
    ∧ (∀ i, t.schema.geometryColumns = [i] →
      t.default_geometry_column_idx = .ok i
      ∧ t.geometry_column none = t.geometryColumnAt i) := by
  refine ⟨?_, ?_, ?_, ?_⟩
  · intro i
    unfold Table.default_geometry_column_idx
    rcases hgl : t.schema.geometryColumns with _ | ⟨a, _ | ⟨b, l⟩⟩ <;> simp
  · intro hgl
    constructor <;>
      simp [Table.default_geometry_column_idx, Table.geometry_column, hgl]
  · intro a b rest hgl
    constructor <;>
      simp [Table.default_geometry_column_idx, Table.geometry_column, hgl]
  · intro i hgl
    constructor <;>
      simp [Table.default_geometry_column_idx, Table.geometry_column, hgl]

/-- Witness for C9: a table with zero geometry columns makes both
`default_geometry_column_idx` and `geometry_column none` fail. -/
theorem single_geometry_column_resolution_witness :
    tBad.default_geometry_column_idx = .err .ambiguousGeometryColumn
    ∧ tBad.geometry_column none = .err .ambiguousGeometryColumn :=
  (single_geometry_column_resolution tBad).2.1 (by decide)

/-- C10: a table whose batch list is non-empty but entirely zero-row counts
as empty, so `parse_geometry_to_native` takes the empty-table path: it
returns `Ok`, and the resulting table has zero batches — `set_column` zips
the existing batches against the empty replacement-array list, dropping every
batch beyond the supplied array count. -/
theorem parse_geometry_to_native_zero_row_batches (t : Table) (i : Nat) (f : Field)
    (tgt : Option GeoDataType)
    (_hne : t.batches ≠ []) (hz : ∀ b ∈ t.batches, b.numRows = 0)
    (hf : t.schema.fields[i]? = some f) :
    t.parse_geometry_to_native i tgt =
      .ok ⟨⟨t.schema.fields.set i
            ((tgt.getD (.LargeMixed .interleaved .xy)).to_field f.name f.nullable),
          t.schema.metadata⟩, []⟩ := by
  have hi : i < t.schema.fields.length := lt_length_of_getElem?_eq_some hf
  rw [parse_empty_path t i f tgt hf (is_empty_of_all_zero t hz),
      set_column_nil t i _ hi]

/-- Witness for C10: a table with one zero-row batch parses to a table with
zero batches and the default target type. -/
theorem parse_geometry_to_native_zero_row_batches_witness :
    Table.parse_geometry_to_native tZeroRows 0 none = .ok tEmptyParsed := by
  have h := parse_geometry_to_native_zero_row_batches tZeroRows 0 wkbField none
    (by decide) (by decide) (by decide)
  exact h.trans (by decide)

end GeoArrow
